import Mathlib

/-!
Verification of the Access Control & Account Lifecycle module of the
PharmaRoleFlow repository.

The development shallowly embeds the relevant TypeScript sources:
  * shared/schema.ts        — the User / Organization / Activity records;
  * server/storage.ts       — the in-memory repository (MemStorage), whose
                              users / activities maps are modelled as lists in
                              insertion order (JS Map iteration order);
  * server/routes.ts        — the POST /api/users, PUT /api/users/:id,
                              DELETE /api/users/:id and GET /api/activities
                              handlers;
  * server/auth.ts          — the LocalStrategy verify callback and the
                              /api/register, /api/login, /api/logout handlers;
  * the Drizzle-backed DatabaseStorage variant (deleteUser, getActivities).

The SHA-256 hex digest used by hashPassword is modelled as an abstract
deterministic function `H : String → String` passed explicitly: the code only
ever uses the digest via recompute-and-compare equality, so determinism (which
every Lean function has) is the whole contract.  Timestamps (`new Date()`)
are modelled as natural numbers supplied by the caller as `now`.
-/

/-- A persisted user row, following the users table of shared/schema.ts
(id, username, password, fullName, email, role, status, organizationId,
region, state, city, pincode, address, managerId, lastLogin).  The role and
status columns are text columns, so they are modelled as strings.  Nullable
columns are Option. -/
structure User where
  id : Nat
  username : String
  password : String
  fullName : String
  email : String
  role : String
  status : String
  organizationId : Option Nat
  region : Option String
  state : Option String
  city : Option String
  pincode : Option String
  address : Option String
  managerId : Option Nat
  lastLogin : Option Nat
deriving DecidableEq, Repr

/-- InsertUser of shared/schema.ts: the users row with the id omitted
(insertUserSchema = createInsertSchema(users).omit id). -/
structure InsertUser where
  username : String
  password : String
  fullName : String
  email : String
  role : String
  status : String
  organizationId : Option Nat
  region : Option String
  state : Option String
  city : Option String
  pincode : Option String
  address : Option String
  managerId : Option Nat
  lastLogin : Option Nat
deriving DecidableEq, Repr

/-- A partial update, Partial of InsertUser in TypeScript: every field is
optionally present.  A present nullable field carries the new (possibly null)
value. -/
structure PartialUser where
  username : Option String := none
  password : Option String := none
  fullName : Option String := none
  email : Option String := none
  role : Option String := none
  status : Option String := none
  organizationId : Option (Option Nat) := none
  region : Option (Option String) := none
  state : Option (Option String) := none
  city : Option (Option String) := none
  pincode : Option (Option String) := none
  address : Option (Option String) := none
  managerId : Option (Option Nat) := none
  lastLogin : Option (Option Nat) := none
deriving DecidableEq, Repr

/-- A persisted activity row (activities table of shared/schema.ts): userId is
a nullable reference, timestamp is assigned at creation. -/
structure Activity where
  id : Nat
  userId : Option Nat
  action : String
  description : String
  timestamp : Nat
deriving DecidableEq, Repr

/-- InsertActivity: the activities row with id and timestamp omitted. -/
structure InsertActivity where
  userId : Option Nat
  action : String
  description : String
deriving DecidableEq, Repr

/-- The object spread `{ ...insertUser, id }` of MemStorage.createUser. -/
def InsertUser.withId (f : InsertUser) (id : Nat) : User :=
  { id := id, username := f.username, password := f.password,
    fullName := f.fullName, email := f.email, role := f.role,
    status := f.status, organizationId := f.organizationId,
    region := f.region, state := f.state, city := f.city,
    pincode := f.pincode, address := f.address, managerId := f.managerId,
    lastLogin := f.lastLogin }

/-- The object spread `{ ...existingUser, ...user }` of MemStorage.updateUser:
each field present in the partial input overrides the stored field; absent
fields are taken from the stored record; the id is not part of InsertUser and
is left as is. -/
def PartialUser.mergeInto (p : PartialUser) (u : User) : User :=
  { id := u.id,
    username := p.username.getD u.username,
    password := p.password.getD u.password,
    fullName := p.fullName.getD u.fullName,
    email := p.email.getD u.email,
    role := p.role.getD u.role,
    status := p.status.getD u.status,
    organizationId := p.organizationId.getD u.organizationId,
    region := p.region.getD u.region,
    state := p.state.getD u.state,
    city := p.city.getD u.city,
    pincode := p.pincode.getD u.pincode,
    address := p.address.getD u.address,
    managerId := p.managerId.getD u.managerId,
    lastLogin := p.lastLogin.getD u.lastLogin }

/-- The in-memory repository of server/storage.ts.  The JS Maps keyed by id
are modelled as lists in insertion order (the order Map.values() iterates). -/
structure MemStorage where
  users : List User
  activities : List Activity
  currentUserId : Nat
  currentActivityId : Nat
deriving DecidableEq, Repr

/-- JS `Map.set(id, u)` on a map keyed by User.id: replace the entry with that
key in place, or append when the key is new. -/
def setUser (l : List User) (u : User) : List User :=
  if l.any (fun x => x.id == u.id) then
    l.map (fun x => if x.id == u.id then u else x)
  else
    l ++ [u]

/-- MemStorage.getUser: `this.users.get(id)`. -/
def MemStorage.getUser (s : MemStorage) (id : Nat) : Option User :=
  s.users.find? (fun u => u.id == id)

/-- MemStorage.getUserByUsername: first user (insertion order) with the given
username. -/
def MemStorage.getUserByUsername (s : MemStorage) (username : String) : Option User :=
  s.users.find? (fun u => u.username == username)

/-- MemStorage.getAllUsers. -/
def MemStorage.getAllUsers (s : MemStorage) : List User :=
  s.users

/-- MemStorage.createUser: take the next id, build `{ ...insertUser, id }`,
store it, and return it.  NOTE: no hashing happens here. -/
def MemStorage.createUser (s : MemStorage) (insertUser : InsertUser) :
    User × MemStorage :=
  let id := s.currentUserId
  let user := insertUser.withId id
  (user, { s with users := setUser s.users user, currentUserId := id + 1 })

/-- MemStorage.updateUser: Map lookup, then the spread
`{ ...existingUser, ...user }` stored back under the same key; undefined is
returned (modelled none) when the id is absent. -/
def MemStorage.updateUser (s : MemStorage) (id : Nat) (p : PartialUser) :
    Option User × MemStorage :=
  match s.users.find? (fun u => u.id == id) with
  | none => (none, s)
  | some existingUser =>
      let updatedUser := p.mergeInto existingUser
      (some updatedUser, { s with users := setUser s.users updatedUser })

/-- MemStorage.deleteUser: `this.users.delete(id)` — the Map.delete result is
true exactly when the key was present; the entry is removed. -/
def MemStorage.deleteUser (s : MemStorage) (id : Nat) : Bool × MemStorage :=
  (s.users.any (fun u => u.id == id),
   { s with users := s.users.filter (fun u => u.id != id) })

/-- MemStorage.createActivity: next id, server-clock timestamp, store and
return the new row. -/
def MemStorage.createActivity (s : MemStorage) (a : InsertActivity) (now : Nat) :
    Activity × MemStorage :=
  let id := s.currentActivityId
  let newActivity : Activity :=
    { id := id, userId := a.userId, action := a.action,
      description := a.description, timestamp := now }
  (newActivity,
   { s with activities := s.activities ++ [newActivity],
            currentActivityId := id + 1 })

/-- The comparator `(a, b) => b.timestamp.getTime() - a.timestamp.getTime()`
used with the (stable) JS Array.prototype.sort, as the boolean order backing
a stable merge sort: a may stay before b iff b.timestamp ≤ a.timestamp. -/
def actDescLe (a b : Activity) : Bool :=
  decide (b.timestamp ≤ a.timestamp)

/-- MemStorage.getActivities: sort all activities by timestamp descending
(stable), then `if (limit)` — a falsy limit (absent or 0) returns the whole
sorted list, otherwise slice(0, limit). -/
def MemStorage.getActivities (s : MemStorage) (limit : Option Nat) : List Activity :=
  let sorted := s.activities.mergeSort actDescLe
  match limit with
  | some l => if l ≠ 0 then sorted.take l else sorted
  | none => sorted

/-- State of the relational store behind the Drizzle-backed DatabaseStorage
variant: the users and activities tables. -/
structure DbState where
  users : List User
  activities : List Activity
deriving DecidableEq, Repr

/-- DatabaseStorage.deleteUser: executes DELETE FROM users WHERE id = $id and
then returns true unconditionally (false is produced only by the catch branch
on a driver error, which is outside this error-free embedding).  The returned
boolean does not depend on whether a row was actually removed. -/
def DbState.deleteUser (db : DbState) (id : Nat) : Bool × DbState :=
  (true, { db with users := db.users.filter (fun u => u.id != id) })

/-- DatabaseStorage.getActivities: SELECT ... ORDER BY timestamp DESC with
LIMIT appended only `if (limit)` (absent or 0 leaves the query uncapped).
Rows with equal timestamps have no specified relative order in SQL; the model
fixes the stable order, which is immaterial whenever timestamps are distinct. -/
def DbState.getActivities (db : DbState) (limit : Option Nat) : List Activity :=
  let sorted := db.activities.mergeSort actDescLe
  match limit with
  | some l => if l ≠ 0 then sorted.take l else sorted
  | none => sorted

/-- A user as serialized in responses: `const (password, ...rest) = user`,
the password field stripped. -/
structure SafeUser where
  id : Nat
  username : String
  fullName : String
  email : String
  role : String
  status : String
  organizationId : Option Nat
  region : Option String
  state : Option String
  city : Option String
  pincode : Option String
  address : Option String
  managerId : Option Nat
  lastLogin : Option Nat
deriving DecidableEq, Repr

/-- The destructuring `const (password, ...userWithoutPassword) = user` used
by every handler before responding. -/
def stripPassword (u : User) : SafeUser :=
  { id := u.id, username := u.username, fullName := u.fullName,
    email := u.email, role := u.role, status := u.status,
    organizationId := u.organizationId, region := u.region, state := u.state,
    city := u.city, pincode := u.pincode, address := u.address,
    managerId := u.managerId, lastLogin := u.lastLogin }

/-- Body of an HTTP response: a json message, a password-stripped user, or an
empty body (res.sendStatus). -/
inductive RespBody where
  | message (m : String)
  | user (u : SafeUser)
  | emptyBody
deriving DecidableEq, Repr

/-- An HTTP response: status code and body. -/
structure Resp where
  status : Nat
  body : RespBody
deriving DecidableEq, Repr

/-- POST /api/users (server/routes.ts).  The actor is the authenticated
req.user; body is the zod-validated InsertUser.  Checks username then email
uniqueness, creates the user — passing the password through verbatim, the
source comment claims it "will be hashed before saving in the auth
middleware" but no such hashing exists on this path — records a CREATE_USER
activity and answers 201 with the password-stripped user. -/
def postApiUsers (s : MemStorage) (actor : User) (body : InsertUser) (now : Nat) :
    Resp × MemStorage :=
  if (s.getUserByUsername body.username).isSome then
    (⟨400, .message "Username already exists"⟩, s)
  else if (s.getAllUsers.find? (fun u => u.email == body.email)).isSome then
    (⟨400, .message "Email already exists"⟩, s)
  else
    let r1 := s.createUser { body with password := body.password }
    let newUser := r1.1
    let r2 := r1.2.createActivity
      ⟨some actor.id, "CREATE_USER",
       "User " ++ actor.username ++ " created a new user " ++ newUser.username ++
       " with role " ++ newUser.role⟩ now
    (⟨201, .user (stripPassword newUser)⟩, r2.2)

/-- POST /api/register (server/auth.ts).  Checks username then email
uniqueness, creates the user with `password: hashPassword(req.body.password)`
and status forced ACTIVE, records a REGISTER activity, logs the new user in
(the returned Option Nat is the session after the call) and answers 201 with
the password-stripped user. -/
def postApiRegister (H : String → String) (s : MemStorage) (body : InsertUser)
    (now : Nat) : Resp × MemStorage × Option Nat :=
  if (s.getUserByUsername body.username).isSome then
    (⟨400, .message "Username already exists"⟩, s, none)
  else if (s.getAllUsers.find? (fun u => u.email == body.email)).isSome then
    (⟨400, .message "Email already exists"⟩, s, none)
  else
    let r1 := s.createUser { body with password := H body.password, status := "ACTIVE" }
    let user := r1.1
    let r2 := r1.2.createActivity
      ⟨some user.id, "REGISTER", "User " ++ user.username ++ " registered"⟩ now
    (⟨201, .user (stripPassword user)⟩, r2.2, some user.id)

/-- The LocalStrategy verify callback (server/auth.ts): look the user up by
username; absent gives done(null, false); then recompute the digest of the
supplied password and compare with the stored field, mismatch gives the same
done(null, false); on match update lastLogin and pass the (pre-update) user. -/
def localStrategyVerify (H : String → String) (s : MemStorage)
    (username password : String) (now : Nat) : Option User × MemStorage :=
  match s.getUserByUsername username with
  | none => (none, s)
  | some user =>
      if H password != user.password then (none, s)
      else
        let r := s.updateUser user.id { lastLogin := some (some now) }
        (some user, r.2)

/-- POST /api/login (server/auth.ts): passport.authenticate with the local
strategy; a falsy user answers 401 Invalid credentials; otherwise req.login
binds the session, a LOGIN activity is recorded and the password-stripped
user is returned. -/
def postApiLogin (H : String → String) (s : MemStorage)
    (username password : String) (now : Nat) : Resp × MemStorage × Option Nat :=
  match localStrategyVerify H s username password now with
  | (none, s1) => (⟨401, .message "Invalid credentials"⟩, s1, none)
  | (some user, s1) =>
      let r := s1.createActivity
        ⟨some user.id, "LOGIN", "User " ++ user.username ++ " logged in"⟩ now
      (⟨200, .user (stripPassword user)⟩, r.2, some user.id)

/-- POST /api/logout (server/auth.ts).  The route is guarded by the
isAuthenticated middleware: a request whose session is absent (or whose bound
user no longer deserializes) is answered 401 Unauthorized before the handler
runs.  With a live session, req.logout destroys it, a LOGOUT activity is
recorded for the bound user, and the response is a bare 200. -/
def postApiLogout (s : MemStorage) (session : Option Nat) (now : Nat) :
    Resp × MemStorage × Option Nat :=
  match session with
  | none => (⟨401, .message "Unauthorized"⟩, s, none)
  | some uid =>
      match s.getUser uid with
      | none => (⟨401, .message "Unauthorized"⟩, s, none)
      | some u =>
          let r := s.createActivity
            ⟨some uid, "LOGOUT", "User " ++ u.username ++ " logged out"⟩ now
          (⟨200, .emptyBody⟩, r.2, none)

/-- PUT /api/users/:id (server/routes.ts): 404 when the target is absent;
otherwise req.body is handed to storage.updateUser as-is (no field is
filtered out), an UPDATE_USER activity is recorded, and the password-stripped
updated user is returned. -/
def putApiUsersId (s : MemStorage) (actor : User) (id : Nat) (body : PartialUser)
    (now : Nat) : Resp × MemStorage :=
  match s.getUser id with
  | none => (⟨404, .message "User not found"⟩, s)
  | some user =>
      let r1 := s.updateUser id body
      let r2 := r1.2.createActivity
        ⟨some actor.id, "UPDATE_USER",
         "User " ++ actor.username ++ " updated user " ++ user.username⟩ now
      match r1.1 with
      | none => (⟨500, .message "Failed to update user"⟩, r2.2)
      | some u => (⟨200, .user (stripPassword u)⟩, r2.2)

/-- DELETE /api/users/:id (server/routes.ts): 404 when the target is absent;
400 "Cannot delete your own account" when the target id equals the
authenticated requester id; otherwise delete, record a DELETE_USER activity
and answer 200. -/
def deleteApiUsersId (s : MemStorage) (actor : User) (id : Nat) (now : Nat) :
    Resp × MemStorage :=
  match s.getUser id with
  | none => (⟨404, .message "User not found"⟩, s)
  | some user =>
      if user.id == actor.id then
        (⟨400, .message "Cannot delete your own account"⟩, s)
      else
        let r1 := s.deleteUser id
        if !r1.1 then (⟨500, .message "Failed to delete user"⟩, r1.2)
        else
          let r2 := r1.2.createActivity
            ⟨some actor.id, "DELETE_USER",
             "User " ++ actor.username ++ " deleted user " ++ user.username⟩ now
          (⟨200, .message "User deleted successfully"⟩, r2.2)

/-- The seeded super admin of MemStorage.initializeData (the password digest
written as an opaque constant string, its value is irrelevant below). -/
def adminUser : User :=
  { id := 1, username := "admin", password := "digest-of-admin",
    fullName := "Admin User", email := "admin@example.com",
    role := "SUPER_ADMIN", status := "ACTIVE", organizationId := some 1,
    region := none, state := none, city := none, pincode := none,
    address := none, managerId := none, lastLogin := none }

/-- The repository right after first boot: the seeded admin, no activities. -/
def bootStore : MemStorage :=
  { users := [adminUser], activities := [],
    currentUserId := 2, currentActivityId := 1 }

/-- A sample create/register request body. -/
def bobInsert : InsertUser :=
  { username := "bob", password := "secret123", fullName := "Bob Briggs",
    email := "bob@example.com", role := "MEDICAL_REPRESENTATIVE",
    status := "ACTIVE", organizationId := none, region := none, state := none,
    city := none, pincode := none, address := none, managerId := none,
    lastLogin := none }

/-- A request body whose username collides with the seeded admin. -/
def conflictInsert : InsertUser :=
  { bobInsert with username := "admin", email := "other@example.com" }

/-- Mapping an element-wise no-op (on elements the predicate accepts, and
predicate-invariant everywhere) through a list does not change find?. -/
theorem find?_map_congr {α : Type} (p : α → Bool) (f : α → α)
    (hp : ∀ x, p (f x) = p x) (hf : ∀ x, p x = true → f x = x) :
    ∀ l : List α, (l.map f).find? p = l.find? p := by
  intro l
  induction l with
  | nil => rfl
  | cons a t ih =>
      simp only [List.map_cons, List.find?_cons, hp a]
      cases h : p a with
      | true => rw [hf a h]
      | false => exact ih

/-- Replacing every entry keyed id by v (with v.id = id) makes find?-by-id
return v, provided some entry with that id exists. -/
theorem find?_map_replace (id : Nat) (v : User) (hv : v.id = id) :
    ∀ l : List User, l.any (fun x => x.id == id) = true →
      (l.map (fun x => if x.id == v.id then v else x)).find?
        (fun u => u.id == id) = some v := by
  intro l
  induction l with
  | nil => intro h; simp at h
  | cons a t ih =>
      intro h
      by_cases ha : a.id = id
      · have hc : (a.id == v.id) = true := by simp [hv, ha]
        have hvp : (v.id == id) = true := by simp [hv]
        have hhead : (if (a.id == v.id) = true then v else a) = v := by
          rw [hc]; rfl
        rw [List.map_cons, hhead,
            @List.find?_cons_of_pos User (fun u => u.id == id) v _ hvp]
      · have hc : (a.id == v.id) = false := by simp [hv, ha]
        have ha3 : (a.id == id) = false := by simp [ha]
        have ht : (t.any fun x => x.id == id) = true := by
          simpa [List.any_cons, ha3] using h
        have hhead : (if (a.id == v.id) = true then v else a) = a := by
          rw [hc]; rfl
        rw [List.map_cons, hhead,
            @List.find?_cons_of_neg User (fun u => u.id == id) a _ (by simp [ha3])]
        exact ih ht

/-- A located user record carries the looked-up id. -/
theorem getUser_id (s : MemStorage) (id : Nat) (u : User)
    (h : s.getUser id = some u) : u.id = id := by
  have := List.find?_some h
  simpa using this

/-- updateUser on a present id returns the spread-merged record and stores it
back under the same key. -/
theorem updateUser_found (s : MemStorage) (id : Nat) (p : PartialUser) (u : User)
    (h : s.getUser id = some u) :
    (s.updateUser id p).1 = some (p.mergeInto u) ∧
    (s.updateUser id p).2.getUser id = some (p.mergeInto u) := by
  have hid : u.id = id := getUser_id s id u h
  have hmem : u ∈ s.users := List.mem_of_find?_eq_some h
  have hany : s.users.any (fun x => x.id == id) = true := by
    rw [List.any_eq_true]
    exact ⟨u, hmem, by simp [hid]⟩
  have hvid : (p.mergeInto u).id = id := by
    show u.id = id
    exact hid
  constructor
  · simp only [MemStorage.updateUser, MemStorage.getUser] at h ⊢
    rw [h]
  · have hrep := find?_map_replace id (p.mergeInto u) hvid s.users hany
    simp only [MemStorage.updateUser, MemStorage.getUser] at h ⊢
    rw [h]
    simp only [setUser, hvid, hany, if_true]
    simp only [hvid] at hrep
    exact hrep

/-- updateUser leaves every other id untouched. -/
theorem updateUser_other (s : MemStorage) (id q : Nat) (hq : q ≠ id)
    (p : PartialUser) :
    (s.updateUser id p).2.getUser q = s.getUser q := by
  simp only [MemStorage.updateUser]
  cases h : s.users.find? (fun u => u.id == id) with
  | none => rfl
  | some u =>
      have hid : u.id = id := by simpa using List.find?_some h
      have hmem : u ∈ s.users := List.mem_of_find?_eq_some h
      have hany : s.users.any (fun x => x.id == u.id) = true := by
        rw [List.any_eq_true]
        exact ⟨u, hmem, by simp⟩
      have hmid : (p.mergeInto u).id = u.id := rfl
      simp only [MemStorage.getUser, setUser, hmid, hany, if_true]
      apply find?_map_congr
      · intro x
        by_cases hx : x.id = u.id
        · simp [hx, hmid]
        · simp [hx]
      · intro x hx
        have hxq : x.id = q := by simpa using hx
        have hne : ¬ x.id = u.id := by
          rw [hxq, hid]
          exact hq
        simp [hne]

/-- Claim C10: both getActivities implementations test the limit for JS
truthiness, not presence, so limit = 0 returns the entire activity list in
descending-timestamp order — exactly as an absent limit — not an empty list. -/
theorem getActivities_zero_limit (s : MemStorage) (db : DbState) :
    s.getActivities (some 0) = s.getActivities none ∧
    db.getActivities (some 0) = db.getActivities none ∧
    (s.getActivities (some 0)).length = s.activities.length := by
  refine ⟨rfl, rfl, ?_⟩
  show (s.activities.mergeSort actDescLe).length = s.activities.length
  exact (List.mergeSort_perm s.activities actDescLe).length_eq

/-- Claim C3 fails on the code: /api/logout is guarded by isAuthenticated, so
the second of two logout calls on the same session — the session now being
absent — is answered 401 Unauthorized, not the success the first call got. -/
theorem logout_counterexample :
    (postApiLogout bootStore (some 1) 5).1.status = 200 ∧
    (postApiLogout (postApiLogout bootStore (some 1) 5).2.1
        (postApiLogout bootStore (some 1) 5).2.2 6).1 =
      ⟨401, .message "Unauthorized"⟩ ∧
    (postApiLogout (postApiLogout bootStore (some 1) 5).2.1
        (postApiLogout bootStore (some 1) 5).2.2 6).1 ≠
      (postApiLogout bootStore (some 1) 5).1 := by
  refine ⟨rfl, rfl, ?_⟩
  decide

/-- Claim C3 amended: logout with a live session destroys it and answers 200;
a logout whose session is already absent (in particular the second of two
calls on the same session) is rejected by the isAuthenticated guard with 401
Unauthorized and leaves the repository unchanged — a no-op, but not a
success. -/
theorem logout_second_call_rejected (s : MemStorage) (uid : Nat) (u : User)
    (now now2 : Nat) (h : s.getUser uid = some u) :
    (postApiLogout s (some uid) now).1.status = 200 ∧
    (postApiLogout s (some uid) now).2.2 = none ∧
    ∀ s2 : MemStorage,
      postApiLogout s2 none now2 = (⟨401, .message "Unauthorized"⟩, s2, none) := by
  refine ⟨?_, ?_, fun s2 => rfl⟩ <;> simp [postApiLogout, h]

/-- Concrete run of logout_second_call_rejected on the freshly booted store. -/
theorem logout_second_call_rejected_witness :
    (postApiLogout bootStore (some 1) 5).1.status = 200 ∧
    postApiLogout bootStore none 6 = (⟨401, .message "Unauthorized"⟩, bootStore, none) := by
  have h := logout_second_call_rejected bootStore 1 adminUser 5 6 (by rfl)
  exact ⟨h.1, h.2.2 bootStore⟩

/-- Claim C8 fails on the code: DatabaseStorage.deleteUser answers true even
when no user row with the requested id was present (here: the empty table). -/
theorem deleteUser_absent_counterexample :
    ((⟨[], []⟩ : DbState).users.find? (fun u => u.id == 1) = none) ∧
    (DbState.deleteUser ⟨[], []⟩ 1).1 = true :=
  ⟨rfl, rfl⟩

/-- Claim C8 amended: MemStorage.deleteUser returns true exactly when a record
with the id existed, and removes it; DatabaseStorage.deleteUser also removes
any matching row but returns true regardless of whether one was present
(false arises only from a storage error). -/
theorem deleteUser_result (s : MemStorage) (db : DbState) (n : Nat) :
    ((s.deleteUser n).1 = true ↔ (s.getUser n).isSome = true) ∧
    (s.deleteUser n).2.getUser n = none ∧
    (db.deleteUser n).1 = true ∧
    (db.deleteUser n).2.users.find? (fun u => u.id == n) = none := by
  refine ⟨?_, ?_, rfl, ?_⟩
  · simp [MemStorage.deleteUser, MemStorage.getUser, List.any_eq_true,
          List.find?_isSome]
  · show ((s.users.filter (fun u => u.id != n)).find? (fun u => u.id == n)) = none
    rw [List.find?_eq_none]
    intro x hx
    have := (List.mem_filter.mp hx).2
    simpa using this
  · show ((db.users.filter (fun u => u.id != n)).find? (fun u => u.id == n)) = none
    rw [List.find?_eq_none]
    intro x hx
    have := (List.mem_filter.mp hx).2
    simpa using this

/-- Claim C2: login with an unknown username and login with a known username
but a password whose digest mismatches the stored field produce the literally
identical result — 401 with the generic Invalid credentials message and an
unchanged repository — so the two failure causes are indistinguishable. -/
theorem login_failure_indistinguishable (H : String → String) (s : MemStorage)
    (u p : String) (now : Nat)
    (h : s.getUserByUsername u = none ∨
         ∃ usr, s.getUserByUsername u = some usr ∧ H p ≠ usr.password) :
    postApiLogin H s u p now = (⟨401, .message "Invalid credentials"⟩, s, none) := by
  rcases h with h | ⟨usr, h1, h2⟩
  · simp [postApiLogin, localStrategyVerify, h]
  · have hb : (H p != usr.password) = true := by simpa using h2
    simp [postApiLogin, localStrategyVerify, h1, hb]

/-- Concrete run of login_failure_indistinguishable: unknown username on the
freshly booted store. -/
theorem login_failure_indistinguishable_witness :
    postApiLogin (fun s => String.append "#" s) bootStore "ghost" "pw" 3 =
      (⟨401, .message "Invalid credentials"⟩, bootStore, none) :=
  login_failure_indistinguishable (fun s => String.append "#" s) bootStore
    "ghost" "pw" 3 (Or.inl rfl)

/-- Claim C4: both user-creating endpoints check username uniqueness first and
return 400 Username already exists before any write, leaving the repository
state exactly as it was. -/
theorem createUser_username_conflict (H : String → String) (s : MemStorage)
    (actor : User) (body : InsertUser) (now : Nat)
    (h : (s.getUserByUsername body.username).isSome = true) :
    postApiUsers s actor body now =
      (⟨400, .message "Username already exists"⟩, s) ∧
    postApiRegister H s body now =
      (⟨400, .message "Username already exists"⟩, s, none) := by
  constructor <;> simp [postApiUsers, postApiRegister, h]

/-- Concrete run of createUser_username_conflict: re-creating admin. -/
theorem createUser_username_conflict_witness :
    postApiUsers bootStore adminUser conflictInsert 9 =
      (⟨400, .message "Username already exists"⟩, bootStore) ∧
    postApiRegister (fun s => String.append "#" s) bootStore conflictInsert 9 =
      (⟨400, .message "Username already exists"⟩, bootStore, none) :=
  createUser_username_conflict (fun s => String.append "#" s) bootStore
    adminUser conflictInsert 9 (by rfl)

/-- Claim C5: DELETE /api/users/:id answers 404 when the target is absent, and
always rejects self-deletion with 400 Cannot delete your own account — for
any requester, whatever their role — leaving the target record in place. -/
theorem deleteUser_self_protection (s : MemStorage) (actor : User) (n : Nat)
    (now : Nat) :
    (∀ u, s.getUser n = some u → actor.id = n →
        deleteApiUsersId s actor n now =
          (⟨400, .message "Cannot delete your own account"⟩, s) ∧
        (deleteApiUsersId s actor n now).2.getUser n = some u) ∧
    (s.getUser n = none →
        deleteApiUsersId s actor n now = (⟨404, .message "User not found"⟩, s)) := by
  constructor
  · intro u hu ha
    have hid : u.id = n := getUser_id s n u hu
    have hcond : (u.id == actor.id) = true := by simp [hid, ha]
    have heq : deleteApiUsersId s actor n now =
        (⟨400, .message "Cannot delete your own account"⟩, s) := by
      simp [deleteApiUsersId, hu, hcond]
    exact ⟨heq, by rw [heq]; exact hu⟩
  · intro h
    simp [deleteApiUsersId, h]

/-- Concrete run of deleteUser_self_protection: admin deleting admin. -/
theorem deleteUser_self_protection_witness :
    deleteApiUsersId bootStore adminUser 1 4 =
      (⟨400, .message "Cannot delete your own account"⟩, bootStore) :=
  ((deleteUser_self_protection bootStore adminUser 1 4).1 adminUser (by rfl) rfl).1

/-- Claim C9 fails on the code: PUT /api/users/:id hands req.body to
storage.updateUser unfiltered, so a body that carries a username does change
the stored username (here from admin to newadmin). -/
theorem update_changes_username_counterexample :
    ((putApiUsersId bootStore adminUser 1
        { username := some "newadmin" } 7).2.getUser 1).map User.username =
      some "newadmin" ∧
    (bootStore.getUser 1).map User.username = some "admin" :=
  ⟨rfl, rfl⟩

/-- Claim C9 amended: the update endpoint applies exactly the fields present
in the request body, username included; the stored username is preserved
precisely when the body carries no username field. -/
theorem putUser_username_frame (s : MemStorage) (actor : User) (id : Nat)
    (body : PartialUser) (now : Nat) (u : User)
    (h : s.getUser id = some u) (hb : body.username = none) :
    (putApiUsersId s actor id body now).2.getUser id = some (body.mergeInto u) ∧
    (body.mergeInto u).username = u.username := by
  have hu := updateUser_found s id body u h
  constructor
  · have hmr : (putApiUsersId s actor id body now).2.users =
        (s.updateUser id body).2.users := by
      simp [putApiUsersId, h, MemStorage.createActivity, hu.1]
    show ((putApiUsersId s actor id body now).2.users.find? fun x => x.id == id) =
      some (body.mergeInto u)
    rw [hmr]
    exact hu.2
  · show body.username.getD u.username = u.username
    rw [hb]
    rfl

/-- Concrete run of putUser_username_frame: updating only fullName keeps the
stored username. -/
theorem putUser_username_frame_witness :
    ((putApiUsersId bootStore adminUser 1 { fullName := some "Root" } 8).2.getUser 1).map
        User.username = some "admin" := by
  have h := putUser_username_frame bootStore adminUser 1 { fullName := some "Root" }
    8 adminUser (by rfl) rfl
  rw [h.1]
  show some (({ fullName := some "Root" } : PartialUser).mergeInto adminUser).username =
    some "admin"
  rw [h.2]
  rfl

/-- Claim C6: MemStorage.updateUser applies exactly the fields present in the
partial input: the returned record is the stored record, it keeps its id,
every absent field is bit-identical to its pre-call value (password
included), every present field takes the supplied value, and all other user
records are untouched. -/
theorem updateUser_partial_isolation (s : MemStorage) (id : Nat)
    (p : PartialUser) (u : User) (h : s.getUser id = some u) :
    ((s.updateUser id p).1 = some (p.mergeInto u) ∧
     (s.updateUser id p).2.getUser id = some (p.mergeInto u)) ∧
    ((p.mergeInto u).id = u.id ∧
     (p.username = none → (p.mergeInto u).username = u.username) ∧
     (p.password = none → (p.mergeInto u).password = u.password) ∧
     (p.fullName = none → (p.mergeInto u).fullName = u.fullName) ∧
     (p.email = none → (p.mergeInto u).email = u.email) ∧
     (p.role = none → (p.mergeInto u).role = u.role) ∧
     (p.status = none → (p.mergeInto u).status = u.status) ∧
     (p.organizationId = none → (p.mergeInto u).organizationId = u.organizationId) ∧
     (p.region = none → (p.mergeInto u).region = u.region) ∧
     (p.state = none → (p.mergeInto u).state = u.state) ∧
     (p.city = none → (p.mergeInto u).city = u.city) ∧
     (p.pincode = none → (p.mergeInto u).pincode = u.pincode) ∧
     (p.address = none → (p.mergeInto u).address = u.address) ∧
     (p.managerId = none → (p.mergeInto u).managerId = u.managerId) ∧
     (p.lastLogin = none → (p.mergeInto u).lastLogin = u.lastLogin)) ∧
    (∀ v, p.fullName = some v → (p.mergeInto u).fullName = v) ∧
    (∀ q, q ≠ id → (s.updateUser id p).2.getUser q = s.getUser q) := by
  refine ⟨updateUser_found s id p u h,
    ⟨rfl, ?_, ?_, ?_, ?_, ?_, ?_, ?_, ?_, ?_, ?_, ?_, ?_, ?_, ?_⟩,
    ?_, fun q hq => updateUser_other s id q hq p⟩ <;>
  first
    | (intro hf
       simp [PartialUser.mergeInto, hf])
    | (intro v hv
       simp [PartialUser.mergeInto, hv])

/-- Concrete run of updateUser_partial_isolation: updating only fullName
leaves every other stored field, password included, bit-identical. -/
theorem updateUser_partial_isolation_witness :
    (bootStore.updateUser 1 { fullName := some "Xavier" }).1 =
      some { adminUser with fullName := "Xavier" } := by
  have h := updateUser_partial_isolation bootStore 1 { fullName := some "Xavier" }
    adminUser (by rfl)
  rw [h.1.1]
  rfl

/-- Claim C1 fails on the code: POST /api/users stores the supplied password
verbatim — the route comment claims the password "will be hashed before
saving in the auth middleware", but no hashing exists anywhere on that path —
while /api/register really does store digest(plaintext).  At the failing
input below the persisted password equals the plaintext and differs from its
digest for every digest function that moves this string at all (SHA-256 hex
does: its output is 64 hex characters). -/
theorem createUser_stores_plaintext (H : String → String)
    (hH : H "secret123" ≠ "secret123") :
    (((postApiUsers bootStore adminUser bobInsert 10).2.getUser 2).map
        User.password = some "secret123") ∧
    (((postApiUsers bootStore adminUser bobInsert 10).2.getUser 2).map
        User.password ≠ some (H "secret123")) ∧
    (((postApiRegister H bootStore bobInsert 11).2.1.getUser 2).map
        User.password = some (H "secret123")) := by
  refine ⟨rfl, ?_, rfl⟩
  intro hc
  rw [show ((postApiUsers bootStore adminUser bobInsert 10).2.getUser 2).map
        User.password = some "secret123" from rfl] at hc
  injection hc with h2
  exact hH h2.symm

/-- Concrete run of createUser_stores_plaintext with a digest that prefixes a
hash mark. -/
theorem createUser_stores_plaintext_witness :
    ((postApiUsers bootStore adminUser bobInsert 10).2.getUser 2).map
        User.password ≠ some (String.append "#" "secret123") ∧
    ((postApiRegister (fun s => String.append "#" s) bootStore bobInsert
        11).2.1.getUser 2).map User.password =
      some (String.append "#" "secret123") := by
  have h := createUser_stores_plaintext (fun s => String.append "#" s) (by decide)
  exact ⟨h.2.1, h.2.2⟩

/-- The descending-timestamp comparator is transitive. -/
theorem actDescLe_trans : ∀ a b c : Activity,
    actDescLe a b = true → actDescLe b c = true → actDescLe a c = true := by
  intro a b c h1 h2
  simp only [actDescLe, decide_eq_true_eq] at h1 h2 ⊢
  omega

/-- The descending-timestamp comparator is total. -/
theorem actDescLe_total : ∀ a b : Activity,
    (actDescLe a b || actDescLe b a) = true := by
  intro a b
  simp only [actDescLe, Bool.or_eq_true, decide_eq_true_eq]
  omega

/-- Two permutations of each other that are both strictly descending in
timestamp are the same list. -/
theorem eq_of_perm_of_strictDesc (l1 l2 : List Activity)
    (hp : l1.Perm l2)
    (h1 : l1.Pairwise (fun a b => b.timestamp < a.timestamp))
    (h2 : l2.Pairwise (fun a b => b.timestamp < a.timestamp)) : l1 = l2 := by
  haveI : IsAntisymm Activity (fun a b => b.timestamp < a.timestamp) :=
    ⟨fun a b hab hba => absurd (lt_trans hab hba) (lt_irrefl _)⟩
  exact List.eq_of_perm_of_sorted hp h1 h2

/-- Stable-sorting a list whose timestamps strictly increase left to right by
descending timestamp yields exactly its reverse. -/
theorem mergeSort_strictMono_eq_reverse (l : List Activity)
    (hmono : l.Pairwise (fun a b => a.timestamp < b.timestamp)) :
    l.mergeSort actDescLe = l.reverse := by
  have hperm : (l.mergeSort actDescLe).Perm l := List.mergeSort_perm l actDescLe
  have hsorted : (l.mergeSort actDescLe).Pairwise (fun a b => actDescLe a b = true) :=
    List.sorted_mergeSort actDescLe_trans actDescLe_total l
  have hne : l.Pairwise (fun a b => a.timestamp ≠ b.timestamp) :=
    hmono.imp (fun h => Nat.ne_of_lt h)
  have hnodup_l : (l.map (fun a => a.timestamp)).Nodup :=
    List.pairwise_map.mpr hne
  have hnodup_m : ((l.mergeSort actDescLe).map (fun a => a.timestamp)).Nodup :=
    ((hperm.map (fun a => a.timestamp)).nodup_iff).mpr hnodup_l
  have hne_m : (l.mergeSort actDescLe).Pairwise
      (fun a b => a.timestamp ≠ b.timestamp) :=
    List.pairwise_map.mp hnodup_m
  have hstrict : (l.mergeSort actDescLe).Pairwise
      (fun a b => b.timestamp < a.timestamp) := by
    refine (hsorted.and hne_m).imp ?_
    intro a b hab
    have hle : b.timestamp ≤ a.timestamp := by
      have := hab.1
      simpa [actDescLe] using this
    exact lt_of_le_of_ne hle (Ne.symm hab.2)
  have hrev : l.reverse.Pairwise (fun a b => b.timestamp < a.timestamp) :=
    List.pairwise_reverse.mpr hmono
  exact eq_of_perm_of_strictDesc _ _
    (hperm.trans (List.reverse_perm l).symm) hstrict hrev

/-- Claim C7: on a dataset whose creation order is reflected in strictly
increasing timestamps — which is what makes "the k most-recently-created"
coincide with "the k newest timestamps" — getActivities with a nonzero limit
k returns exactly the k most recently created activities newest first (the
first k of the reversed creation order), and without a limit returns all of
them in that same descending order; when k is at most the dataset size the
capped result has exactly k entries.  Both storage variants agree. -/
theorem getActivities_most_recent (s : MemStorage) (db : DbState) (k : Nat)
    (hs : s.activities.Pairwise (fun a b => a.timestamp < b.timestamp))
    (hdb : db.activities.Pairwise (fun a b => a.timestamp < b.timestamp))
    (hk : k ≠ 0) :
    s.getActivities (some k) = s.activities.reverse.take k ∧
    s.getActivities none = s.activities.reverse ∧
    (k ≤ s.activities.length → (s.getActivities (some k)).length = k) ∧
    db.getActivities (some k) = db.activities.reverse.take k ∧
    db.getActivities none = db.activities.reverse := by
  have e1 := mergeSort_strictMono_eq_reverse s.activities hs
  have e2 := mergeSort_strictMono_eq_reverse db.activities hdb
  have hsome : s.getActivities (some k) = s.activities.reverse.take k := by
    simp [MemStorage.getActivities, hk, e1]
  refine ⟨hsome, ?_, ?_, ?_, ?_⟩
  · simp [MemStorage.getActivities, e1]
  · intro hlen
    rw [hsome, List.length_take, List.length_reverse]
    omega
  · simp [DbState.getActivities, hk, e2]
  · simp [DbState.getActivities, e2]

/-- Three activities created at strictly increasing instants. -/
def actA : Activity :=
  { id := 1, userId := some 1, action := "REGISTER",
    description := "User admin registered", timestamp := 1 }

/-- Second sample activity. -/
def actB : Activity :=
  { id := 2, userId := some 1, action := "LOGIN",
    description := "User admin logged in", timestamp := 2 }

/-- Third sample activity. -/
def actC : Activity :=
  { id := 3, userId := some 1, action := "LOGOUT",
    description := "User admin logged out", timestamp := 3 }

/-- A store holding the three sample activities in creation order. -/
def actStore : MemStorage :=
  { users := [adminUser], activities := [actA, actB, actC],
    currentUserId := 2, currentActivityId := 4 }

/-- The relational store holding the same three activities. -/
def actDb : DbState := { users := [], activities := [actA, actB, actC] }

/-- Concrete run of getActivities_most_recent: limit 2 yields the two newest,
newest first; no limit yields all three descending. -/
theorem getActivities_most_recent_witness :
    actStore.getActivities (some 2) = [actC, actB] ∧
    actStore.getActivities none = [actC, actB, actA] ∧
    actDb.getActivities (some 2) = [actC, actB] := by
  have h := getActivities_most_recent actStore actDb 2 (by decide) (by decide)
    (by decide)
  refine ⟨?_, ?_, ?_⟩
  · rw [h.1]; rfl
  · rw [h.2.1]; rfl
  · rw [h.2.2.2.1]; rfl
